import Mathlib

/-! # custom-controller: the deployment label controller of `controller.go`

A shallow embedding of `controller.go`.  The controller's collaborators (the
informer's store behind the lister, the work queue, the remote API client)
are not evaluated: every call the controller makes on them is recorded, in
order, in a trace, and what they hand back (the item of `queue.Get`, the
result of `Update`) is an input of the model.  The one collaborator with
state the controller reads and writes through a pointer, the store of the
informer, is part of the state.  The stop channel and the two library loops
`run` goes through, `cache.WaitForCacheSync` and `wait.Until`, are evaluated
against an environment that says when the informer has synced and when the
channel is closed.
-/

namespace Controller

/-! ## Go maps -/

/-- The content of a Go `map[string]V`, as an association list with at most
one entry for a key when built with `mapSet`. -/
abbrev GoMap (V : Type) := List (String × V)

/-- The read `v, ok := m[k]` on the content of a map. -/
def mapGet {V : Type} : GoMap V → String → Option V
  | [], _ => none
  | (k', v) :: rest, k => if k' = k then some v else mapGet rest k

/-- The write `m[k] = v` on the content of a map. -/
def mapSet {V : Type} : GoMap V → String → V → GoMap V
  | [], k, v => [(k, v)]
  | (k', v') :: rest, k, v =>
    if k' = k then (k, v) :: rest else (k', v') :: mapSet rest k v

/-- The read `v, ok := m[k]` on a map that may be nil: a nil map has no key. -/
def nilableGet (m : Option (GoMap String)) (k : String) : Option String :=
  match m with
  | none => none
  | some entries => mapGet entries k

/-! ## Objects, errors, and recorded calls -/

/-- The fields of `appsv1.Deployment` the controller touches; `Rest` stands
for everything else in the object (spec, status, the other metadata). -/
structure Deployment where
  Namespace : String
  Name : String
  Labels : Option (GoMap String)
  Annotations : Option (GoMap String)
  Rest : String
  deriving DecidableEq, Repr

/-- What the informer hands to an event handler and what `queue.Get` hands
back (`interface{}` in the source): a deployment, the tombstone
`cache.DeletedFinalStateUnknown` of a missed delete, or a `cache.ExplicitKey`. -/
inductive Item where
  | deployment (d : Deployment)
  | deletedFinalStateUnknown (key : String) (obj : Option Deployment)
  | explicitKey (key : String)
  deriving DecidableEq, Repr

/-- The Go `error` values the controller can see. -/
inductive Err where
  | notFound (ns name : String)
  | conflict (ns name : String)
  | other (msg : String)
  | noMeta
  | keyFormat (key : String)
  deriving DecidableEq, Repr

/-- One call made by the controller on a collaborator or on `fmt`.
The queue calls are the methods of `workqueue.RateLimitingInterface`;
`goWaitUntilWorker` is the statement `go wait.Until(c.worker, ...)`,
`receiveStop` the receive `<-ch` that `run` reaches after it, and
`callWorker` a call of `c.worker` made by `wait.Until`. -/
inductive Call where
  | print (text : String) (err : Option Err)
  | queueGet
  | queueAdd (item : Item)
  | queueAddRateLimited (item : Item)
  | queueForget (item : Item)
  | queueDone (item : Item)
  | update (ns : String) (obj : Deployment)
  | waitForCacheSync
  | goWaitUntilWorker
  | receiveStop
  | callWorker
  deriving DecidableEq, Repr

/-- The state the controller runs in: the informer's store (key to object,
the objects the lister returns pointers to) and the calls made so far. -/
structure World where
  cache : GoMap Deployment
  trace : List Call
  deriving DecidableEq, Repr

/-- The remote API as seen from the controller: the error (or nil) that
`Deployments(ns).Update(ctx, dep, opts)` returns. -/
abbrev RemoteAPI := String → Deployment → Option Err

/-- Append a call to the trace. -/
def World.emit (w : World) (c : Call) : World :=
  { w with trace := w.trace ++ [c] }

/-- The namespace and object of a remote `Update` call. -/
def Call.asUpdate : Call → Option (String × Deployment)
  | Call.update ns obj => some (ns, obj)
  | _ => none

/-- The remote `Update` calls of a trace, in order. -/
def remoteUpdates (t : List Call) : List (String × Deployment) :=
  t.filterMap Call.asUpdate

/-- Whether a call changes the queue's content or bookkeeping: `Add`,
`AddRateLimited`, `Forget` or `Done`. -/
def Call.isQueueWrite : Call → Bool
  | Call.queueAdd _ => true
  | Call.queueAddRateLimited _ => true
  | Call.queueForget _ => true
  | Call.queueDone _ => true
  | _ => false

/-- The `Add`, `AddRateLimited`, `Forget` and `Done` calls of a trace, in order. -/
def queueWrites (t : List Call) : List Call :=
  t.filter Call.isQueueWrite

/-! ## The lister and `syncDeployment` -/

/-- The store key of `lister.Deployments(ns).Get(name)`. -/
def listerKey (ns name : String) : String := ns ++ "/" ++ name

/-- The call `c.lister.Deployments(ns).Get(name)`: the stored object under
`ns/name`, or a NotFound error. -/
def listerGet (cache : GoMap Deployment) (ns name : String) : Except Err Deployment :=
  match mapGet cache (listerKey ns name) with
  | some dep => Except.ok dep
  | none => Except.error (Err.notFound ns name)

/-- The object `dep` points to after lines 96-99 of `syncDeployment`: the
labels map is made when nil, then `Labels["deployment-name"] = dep.Name`. -/
def withNameLabel (dep : Deployment) : Deployment :=
  let labels := match dep.Labels with
    | none => []
    | some m => m
  { dep with Labels := some (mapSet labels "deployment-name" dep.Name) }

/-- The method `syncDeployment(ns, name)`.  The lister returns a pointer to
the stored object, so the write to `dep.Labels` is a write to the store. -/
def syncDeployment (api : RemoteAPI) (ns name : String) (w : World) : Option Err × World :=
  match listerGet w.cache ns name with
  | Except.error err =>
    (some err, w.emit (Call.print "getting the deployment from the list %s\n" (some err)))
  | Except.ok dep =>
    let annotations := dep.Annotations
    match nilableGet annotations "add-deployment-name-label" with
    | some value =>
      if value = "True" then
        let dep1 := withNameLabel dep
        let w1 : World := { w with cache := mapSet w.cache (listerKey ns name) dep1 }
        let w2 := w1.emit (Call.update ns dep1)
        match api ns dep1 with
        | some err => (some err, w2.emit (Call.print "update failed" (some err)))
        | none => (none, w2.emit (Call.print "label is added" none))
      else (none, w)
    | none => (none, w)

/-! ## Keys, `processItem` and `worker` -/

/-- The function `cache.MetaNamespaceKeyFunc`: an explicit key is returned as
it is; an object with metadata gives `namespace/name`, or `name` alone when
the namespace is empty; anything else (a tombstone) is an error. -/
def MetaNamespaceKeyFunc : Item → Except Err String
  | Item.explicitKey key => Except.ok key
  | Item.deployment d =>
    if d.Namespace.length > 0 then Except.ok (d.Namespace ++ "/" ++ d.Name)
    else Except.ok d.Name
  | Item.deletedFinalStateUnknown _ _ => Except.error Err.noMeta

/-- The call `strings.Split(s, "/")` on the characters of `s`. -/
def splitSlash : List Char → List (List Char)
  | [] => [[]]
  | c :: cs =>
    match splitSlash cs with
    | [] => [[]]
    | p :: ps => if c = '/' then [] :: p :: ps else (c :: p) :: ps

/-- The function `cache.SplitMetaNamespaceKey`: one part is a name without
namespace, two parts are namespace and name, anything else is an error. -/
def SplitMetaNamespaceKey (key : String) : Except Err (String × String) :=
  match splitSlash key.data with
  | [name] => Except.ok ("", String.mk name)
  | [ns, name] => Except.ok (String.mk ns, String.mk name)
  | _ => Except.error (Err.keyFormat key)

/-- The method `processItem`.  The argument `got` is what `c.queue.Get()`
returned: `none` for `shutdown = true`, `some item` otherwise. -/
def processItem (api : RemoteAPI) (got : Option Item) (w : World) : Bool × World :=
  let w1 := w.emit Call.queueGet
  match got with
  | none => (false, w1)
  | some item =>
    match MetaNamespaceKeyFunc item with
    | Except.error err =>
      (false, w1.emit (Call.print "getting key from cache %s\n" (some err)))
    | Except.ok key =>
      match SplitMetaNamespaceKey key with
      | Except.error err =>
        (false, w1.emit (Call.print "splitting ns and name from cache %s\n" (some err)))
      | Except.ok (ns, name) =>
        match syncDeployment api ns name w1 with
        | (some err, w2) => (true, w2.emit (Call.print "syncing cache %s\n" (some err)))
        | (none, w2) => (true, w2)

/-- The method `worker`: `for c.processItem() {}`, run against the results
`queue.Get` will hand out, in order.  It returns the state it stopped in and
the results it did not consume; with nothing left to hand out, `Get` blocks. -/
def worker (api : RemoteAPI) : List (Option Item) → World → World × List (Option Item)
  | [], w => (w, [])
  | got :: rest, w =>
    match processItem api got w with
    | (true, w1) => worker api rest w1
    | (false, w1) => (w1, rest)

/-! ## The stop channel, the library loops and `run` -/

/-- What `run` depends on outside the controller: `hasSynced t` is what
`c.cacheSynced()` returns when called at time `t`, and `stopAt` is the time
at which the stop channel `ch` is closed, if it ever is. -/
structure Env where
  hasSynced : Nat → Bool
  stopAt : Option Nat

/-- Whether a receive on the stop channel succeeds at time `t`: a closed
channel stays closed. -/
def Env.closed (env : Env) (t : Nat) : Bool :=
  match env.stopAt with
  | some s => decide (s ≤ t)
  | none => false

/-- The call `cache.WaitForCacheSync(ch, c.cacheSynced)` started at time `t`,
followed for `polls` rounds of its poll loop: a round returns true when the
informer has synced, returns false when the stop channel is closed, and
otherwise waits for the next round.  The result is what it returned and
when; `none` means it is still polling after `polls` rounds. -/
def WaitForCacheSync (env : Env) : Nat → Nat → Option (Bool × Nat)
  | 0, _ => none
  | polls + 1, t =>
    if env.hasSynced t then some (true, t)
    else if env.closed t then some (false, t)
    else WaitForCacheSync env polls (t + 1)

/-- Whether the loop of `worker` ends on these results of `queue.Get` (some
`processItem` returns false) rather than staying blocked in `Get`. -/
def workerReturns (api : RemoteAPI) : List (Option Item) → World → Bool
  | [], _ => false
  | got :: rest, w =>
    match processItem api got w with
    | (true, w1) => workerReturns api rest w1
    | (false, _) => true

/-- The call `wait.Until(c.worker, 1*time.Second, ch)` started at time `t`,
followed for `rounds` rounds: each round first tests the stop channel and
returns when it is closed; otherwise it calls `c.worker`, and when that
returns, lets the period pass and starts the next round. -/
def waitUntil (env : Env) (api : RemoteAPI) :
    Nat → Nat → List (Option Item) → World → World
  | 0, _, _, w => w
  | rounds + 1, t, feed, w =>
    if env.closed t then w
    else
      let w1 := w.emit Call.callWorker
      if workerReturns api feed w1 then
        waitUntil env api rounds (t + 1) (worker api feed w1).2 (worker api feed w1).1
      else (worker api feed w1).1

/-- The method `run`, started at time 0.  `WaitForCacheSync` is followed for
`polls` rounds and the goroutine of `wait.Until` for `rounds` rounds, on the
results `feed` of `queue.Get`.  While the goroutine runs, `run` itself is
blocked in the receive on `ch`. -/
def run (env : Env) (api : RemoteAPI) (polls rounds : Nat) (feed : List (Option Item))
    (w : World) : World :=
  let w1 := w.emit (Call.print "starting controller" none)
  let w2 := w1.emit Call.waitForCacheSync
  match WaitForCacheSync env polls 0 with
  | none => w2
  | some (ok, t) =>
    let w3 := if !ok then
        w2.emit (Call.print "error occured while syncing cache\n" none)
      else w2
    let w4 := w3.emit Call.goWaitUntilWorker
    let w5 := w4.emit Call.receiveStop
    waitUntil env api rounds (t + 1) feed w5

/-! ## `newController` and the event handlers -/

/-- The method `handleDelete`. -/
def handleDelete (obj : Item) (w : World) : World :=
  (w.emit (Call.print "Delete was called" none)).emit (Call.queueAdd obj)

/-- The method `handleAdd`. -/
def handleAdd (obj : Item) (w : World) : World :=
  (w.emit (Call.print "Add was called" none)).emit (Call.queueAdd obj)

/-- The struct `cache.ResourceEventHandlerFuncs`: each handler may be nil. -/
structure ResourceEventHandlerFuncs where
  AddFunc : Option (Item → World → World)
  UpdateFunc : Option (Item → Item → World → World)
  DeleteFunc : Option (Item → World → World)

/-- The handlers `newController` registers with `AddEventHandler`. -/
def newController : ResourceEventHandlerFuncs :=
  { AddFunc := some handleAdd
    UpdateFunc := none
    DeleteFunc := some handleDelete }

/-- A notification of the informer. -/
inductive Notification where
  | add (obj : Item)
  | update (oldObj newObj : Item)
  | delete (obj : Item)
  deriving DecidableEq, Repr

/-- The methods `OnAdd`, `OnUpdate` and `OnDelete` of
`ResourceEventHandlerFuncs`: each calls its handler when it is not nil. -/
def deliver (h : ResourceEventHandlerFuncs) : Notification → World → World
  | Notification.add obj, w =>
    match h.AddFunc with
    | some f => f obj w
    | none => w
  | Notification.update oldObj newObj, w =>
    match h.UpdateFunc with
    | some f => f oldObj newObj w
    | none => w
  | Notification.delete obj, w =>
    match h.DeleteFunc with
    | some f => f obj w
    | none => w

/-! ## Concrete objects used in the evaluations below -/

/-- A deployment with the marker annotation and no labels. -/
def web : Deployment :=
  { Namespace := "default", Name := "web", Labels := none,
    Annotations := some [("add-deployment-name-label", "True")], Rest := "replicas=1" }

/-- The deployment `web` once it carries the label. -/
def webLabelled : Deployment :=
  { web with Labels := some [("deployment-name", "web")] }

/-- A deployment whose marker is spelled `true`, with another label. -/
def api0 : Deployment :=
  { Namespace := "default", Name := "api", Labels := some [("tier", "backend")],
    Annotations := some [("add-deployment-name-label", "true")], Rest := "replicas=2" }

/-- A remote API on which every `Update` succeeds. -/
def apiOk : RemoteAPI := fun _ _ => none

/-- A remote API on which every `Update` fails with Conflict. -/
def apiConflict : RemoteAPI := fun ns obj => some (Err.conflict ns obj.Name)

/-- A store holding `web` and `api0`, and no call made yet. -/
def world0 : World :=
  { cache := [("default/web", web), ("default/api", api0)], trace := [] }

/-- The store of `world0` once the informer has seen the label on `web`. -/
def world1 : World :=
  { cache := [("default/web", webLabelled), ("default/api", api0)], trace := [] }

/-- An environment in which the informer never syncs and the stop channel is
closed at time 2. -/
def envStopped : Env := { hasSynced := fun _ => false, stopAt := some 2 }

/-- An environment in which the informer has synced from time 1 on and the
stop channel is closed at time 4. -/
def envSynced : Env := { hasSynced := fun t => decide (1 ≤ t), stopAt := some 4 }

/-! ## Lemmas on maps and traces -/

theorem mapGet_mapSet {V : Type} (m : GoMap V) (k : String) (v : V) (k' : String) :
    mapGet (mapSet m k v) k' = if k = k' then some v else mapGet m k' := by
  induction m with
  | nil => simp [mapSet, mapGet]
  | cons e rest ih =>
    obtain ⟨k0, v0⟩ := e
    by_cases h0 : k0 = k
    · subst h0
      by_cases h1 : k0 = k' <;> simp [mapSet, mapGet, h1]
    · by_cases h1 : k0 = k'
      · subst h1
        have h2 : ¬ k = k0 := fun h => h0 h.symm
        simp [mapSet, mapGet, h0, h2]
      · simp [mapSet, mapGet, h0, h1, ih]

theorem mapSet_of_mapGet {V : Type} (m : GoMap V) (k : String) (v : V)
    (h : mapGet m k = some v) : mapSet m k v = m := by
  induction m with
  | nil => simp [mapGet] at h
  | cons e rest ih =>
    obtain ⟨k0, v0⟩ := e
    by_cases h0 : k0 = k
    · subst h0
      simp [mapGet] at h
      simp [mapSet, h]
    · simp [mapGet, h0] at h
      simp [mapSet, h0, ih h]

theorem remoteUpdates_emit (w : World) (c : Call) :
    remoteUpdates (w.emit c).trace = remoteUpdates w.trace ++ (c.asUpdate).toList := by
  cases h : c.asUpdate <;> simp [remoteUpdates, World.emit, List.filterMap_append, h]

theorem queueWrites_emit (w : World) (c : Call) :
    queueWrites (w.emit c).trace
      = queueWrites w.trace ++ (if c.isQueueWrite then [c] else []) := by
  cases h : c.isQueueWrite <;> simp [queueWrites, World.emit, List.filter_append, h]

theorem listerGet_ok_iff (cache : GoMap Deployment) (ns name : String) (dep : Deployment) :
    listerGet cache ns name = Except.ok dep ↔ mapGet cache (listerKey ns name) = some dep := by
  unfold listerGet
  cases h : mapGet cache (listerKey ns name) <;> simp

/-- With the marker set, `syncDeployment` writes the label through the
pointer, calls `Update` once with that object and returns what `Update` returned. -/
theorem syncDeployment_marked (api : RemoteAPI) (ns name : String) (w : World)
    (dep : Deployment) (hget : listerGet w.cache ns name = Except.ok dep)
    (hmark : nilableGet dep.Annotations "add-deployment-name-label" = some "True") :
    (syncDeployment api ns name w).1 = api ns (withNameLabel dep)
    ∧ (syncDeployment api ns name w).2.cache
        = mapSet w.cache (listerKey ns name) (withNameLabel dep)
    ∧ remoteUpdates (syncDeployment api ns name w).2.trace
        = remoteUpdates w.trace ++ [(ns, withNameLabel dep)]
    ∧ queueWrites (syncDeployment api ns name w).2.trace = queueWrites w.trace := by
  unfold syncDeployment
  simp only [hget, hmark]
  cases hapi : api ns (withNameLabel dep) <;>
    simp [remoteUpdates_emit, queueWrites_emit, Call.asUpdate, Call.isQueueWrite, World.emit,
      remoteUpdates, queueWrites, List.filterMap_append, List.filter_append]

/-- Without the marker, `syncDeployment` returns nil and does nothing. -/
theorem syncDeployment_unmarked (api : RemoteAPI) (ns name : String) (w : World)
    (dep : Deployment) (hget : listerGet w.cache ns name = Except.ok dep)
    (hno : nilableGet dep.Annotations "add-deployment-name-label" ≠ some "True") :
    syncDeployment api ns name w = (none, w) := by
  unfold syncDeployment
  simp only [hget]
  cases hv : nilableGet dep.Annotations "add-deployment-name-label" with
  | none => rfl
  | some value =>
    have hne : ¬ value = "True" := fun h => hno (by rw [hv, h])
    simp [hne]

/-- When the lister fails, `syncDeployment` logs and returns the error. -/
theorem syncDeployment_lister_error (api : RemoteAPI) (ns name : String) (w : World)
    (err : Err) (hget : listerGet w.cache ns name = Except.error err) :
    syncDeployment api ns name w
      = (some err, w.emit (Call.print "getting the deployment from the list %s\n" (some err))) := by
  unfold syncDeployment
  simp only [hget]

/-- What `syncDeployment` returns does not depend on the calls made before. -/
theorem syncDeployment_result_of_cache (api : RemoteAPI) (ns name : String) (w w' : World)
    (h : w.cache = w'.cache) :
    (syncDeployment api ns name w).1 = (syncDeployment api ns name w').1 := by
  unfold syncDeployment
  rw [h]
  cases hget : listerGet w'.cache ns name with
  | error err => rfl
  | ok dep =>
    simp only
    cases hv : nilableGet dep.Annotations "add-deployment-name-label" with
    | none => rfl
    | some value =>
      by_cases hT : value = "True"
      · simp only [hT, if_true]
        cases api ns (withNameLabel dep) <;> rfl
      · simp only [hT, if_false]

/-- No path of `syncDeployment` calls the queue. -/
theorem syncDeployment_queueWrites (api : RemoteAPI) (ns name : String) (w : World) :
    queueWrites (syncDeployment api ns name w).2.trace = queueWrites w.trace := by
  cases hget : listerGet w.cache ns name with
  | error err =>
    rw [syncDeployment_lister_error api ns name w err hget]
    simp [queueWrites_emit, Call.isQueueWrite]
  | ok dep =>
    by_cases hmark : nilableGet dep.Annotations "add-deployment-name-label" = some "True"
    · exact (syncDeployment_marked api ns name w dep hget hmark).2.2.2
    · rw [syncDeployment_unmarked api ns name w dep hget hmark]

/-! ## `syncDeployment`: the claims -/

/-- C1, as stated, fails: `webLabelled` carries the marker and already has the
label `deployment-name` equal to its name, yet `syncDeployment` issues an
`Update` for it; and two runs in a row from `world0` issue two writes, the
second one on a store that already shows the label. -/
theorem syncDeployment_converged_still_updates :
    nilableGet webLabelled.Annotations "add-deployment-name-label" = some "True"
    ∧ nilableGet webLabelled.Labels "deployment-name" = some webLabelled.Name
    ∧ mapGet world1.cache (listerKey "default" "web") = some webLabelled
    ∧ remoteUpdates (syncDeployment apiOk "default" "web" world1).2.trace
        = [("default", webLabelled)]
    ∧ remoteUpdates (syncDeployment apiOk "default" "web" world1).2.trace
        ≠ remoteUpdates world1.trace
    ∧ remoteUpdates (syncDeployment apiOk "default" "web"
          (syncDeployment apiOk "default" "web" world0).2).2.trace
        = [("default", webLabelled), ("default", webLabelled)] := by
  decide

/-- C1, amended: for a cached deployment that already satisfies the policy
(marker annotation `True`, label `deployment-name` equal to its name),
`syncDeployment` issues exactly one `Update`, whose object equals the cached
object, and leaves the store as it was; a second run right after it issues
the same `Update` once more. -/
theorem syncDeployment_converged_rewrites (api : RemoteAPI) (ns name : String) (w : World)
    (dep : Deployment) (hget : listerGet w.cache ns name = Except.ok dep)
    (hmark : nilableGet dep.Annotations "add-deployment-name-label" = some "True")
    (hlabel : nilableGet dep.Labels "deployment-name" = some dep.Name) :
    remoteUpdates (syncDeployment api ns name w).2.trace = remoteUpdates w.trace ++ [(ns, dep)]
    ∧ (syncDeployment api ns name w).2.cache = w.cache
    ∧ remoteUpdates (syncDeployment api ns name (syncDeployment api ns name w).2).2.trace
        = remoteUpdates w.trace ++ [(ns, dep), (ns, dep)] := by
  have hsame : withNameLabel dep = dep := by
    cases dep with
    | mk dns dname labels annots rest =>
      cases labels with
      | none => simp [nilableGet] at hlabel
      | some m =>
        simp only [nilableGet] at hlabel
        simp [withNameLabel, mapSet_of_mapGet m "deployment-name" dname hlabel]
  have hstore : mapSet w.cache (listerKey ns name) dep = w.cache :=
    mapSet_of_mapGet _ _ _ ((listerGet_ok_iff _ _ _ _).1 hget)
  have h1 := syncDeployment_marked api ns name w dep hget hmark
  rw [hsame, hstore] at h1
  have hget2 : listerGet (syncDeployment api ns name w).2.cache ns name = Except.ok dep := by
    rw [h1.2.1]; exact hget
  have h2 := syncDeployment_marked api ns name (syncDeployment api ns name w).2 dep hget2 hmark
  rw [hsame] at h2
  refine ⟨h1.2.2.1, h1.2.1, ?_⟩
  rw [h2.2.2.1, h1.2.2.1]
  simp

/-- Witness of `syncDeployment_converged_rewrites` on `webLabelled` in `world1`. -/
theorem syncDeployment_converged_rewrites_witness :
    remoteUpdates (syncDeployment apiOk "default" "web" world1).2.trace
        = remoteUpdates world1.trace ++ [("default", webLabelled)]
    ∧ (syncDeployment apiOk "default" "web" world1).2.cache = world1.cache
    ∧ remoteUpdates (syncDeployment apiOk "default" "web"
          (syncDeployment apiOk "default" "web" world1).2).2.trace
        = remoteUpdates world1.trace ++ [("default", webLabelled), ("default", webLabelled)] :=
  syncDeployment_converged_rewrites apiOk "default" "web" world1 webLabelled rfl
    (by decide) (by decide)

/-- C2, as stated, fails: the store of `world0` has no `default/gone`, the
lister reports NotFound, and `syncDeployment` returns that error, not nil. -/
theorem syncDeployment_not_found_returns_error :
    mapGet world0.cache (listerKey "default" "gone") = none
    ∧ (syncDeployment apiOk "default" "gone" world0).1 = some (Err.notFound "default" "gone")
    ∧ (syncDeployment apiOk "default" "gone" world0).1 ≠ none := by
  decide

/-- C2, amended: when the lister lookup of (namespace, name) reports NotFound,
`syncDeployment` logs the error with the one line `getting the deployment
from the list ...` and returns that NotFound error (not nil); it makes no
other call, so issues no remote `Update`, and leaves the store unchanged. -/
theorem syncDeployment_not_found (api : RemoteAPI) (ns name : String) (w : World)
    (hget : listerGet w.cache ns name = Except.error (Err.notFound ns name)) :
    syncDeployment api ns name w
        = (some (Err.notFound ns name),
           { w with trace := w.trace ++
              [Call.print "getting the deployment from the list %s\n"
                (some (Err.notFound ns name))] })
    ∧ (syncDeployment api ns name w).1 = some (Err.notFound ns name)
    ∧ remoteUpdates (syncDeployment api ns name w).2.trace = remoteUpdates w.trace
    ∧ (syncDeployment api ns name w).2.cache = w.cache := by
  rw [syncDeployment_lister_error api ns name w _ hget]
  refine ⟨rfl, rfl, ?_, rfl⟩
  simp [remoteUpdates_emit, Call.asUpdate]

/-- Witness of `syncDeployment_not_found` on the missing `default/gone`. -/
theorem syncDeployment_not_found_witness :
    syncDeployment apiOk "default" "gone" world0
        = (some (Err.notFound "default" "gone"),
           { world0 with trace := world0.trace ++
              [Call.print "getting the deployment from the list %s\n"
                (some (Err.notFound "default" "gone"))] })
    ∧ (syncDeployment apiOk "default" "gone" world0).1 = some (Err.notFound "default" "gone")
    ∧ remoteUpdates (syncDeployment apiOk "default" "gone" world0).2.trace
        = remoteUpdates world0.trace
    ∧ (syncDeployment apiOk "default" "gone" world0).2.cache = world0.cache :=
  syncDeployment_not_found apiOk "default" "gone" world0 rfl

/-- C3: for a cached deployment whose annotation `add-deployment-name-label`
is `True` and which lacks the label `deployment-name`, `syncDeployment` issues
exactly one remote `Update`; the object sent has the namespace, name,
annotations and remaining fields of the cached object, its labels are those of
the cached object except that `deployment-name` is the deployment's name; and
`syncDeployment` returns nil when that `Update` succeeds. -/
theorem syncDeployment_adds_name_label (api : RemoteAPI) (ns name : String) (w : World)
    (dep : Deployment) (hget : listerGet w.cache ns name = Except.ok dep)
    (hmark : nilableGet dep.Annotations "add-deployment-name-label" = some "True")
    (_hlack : nilableGet dep.Labels "deployment-name" = none) :
    ∃ sent : Deployment,
      remoteUpdates (syncDeployment api ns name w).2.trace
        = remoteUpdates w.trace ++ [(ns, sent)]
      ∧ sent.Namespace = dep.Namespace ∧ sent.Name = dep.Name
      ∧ sent.Annotations = dep.Annotations ∧ sent.Rest = dep.Rest
      ∧ (∀ k : String, nilableGet sent.Labels k
          = if k = "deployment-name" then some dep.Name else nilableGet dep.Labels k)
      ∧ (api ns sent = none → (syncDeployment api ns name w).1 = none) := by
  have h := syncDeployment_marked api ns name w dep hget hmark
  refine ⟨withNameLabel dep, h.2.2.1, rfl, rfl, rfl, rfl, ?_, fun hok => by rw [h.1, hok]⟩
  intro k
  have hk : ("deployment-name" = k) = (k = "deployment-name") := by
    apply propext; constructor <;> exact fun e => e.symm
  cases hl : dep.Labels with
  | none => simp [withNameLabel, nilableGet, hl, mapGet_mapSet, mapGet, hk]
  | some m => simp [withNameLabel, nilableGet, hl, mapGet_mapSet, hk]

/-- Witness of `syncDeployment_adds_name_label` on `web` in `world0`. -/
theorem syncDeployment_adds_name_label_witness :
    ∃ sent : Deployment,
      remoteUpdates (syncDeployment apiOk "default" "web" world0).2.trace
        = remoteUpdates world0.trace ++ [("default", sent)]
      ∧ sent.Namespace = web.Namespace ∧ sent.Name = web.Name
      ∧ sent.Annotations = web.Annotations ∧ sent.Rest = web.Rest
      ∧ (∀ k : String, nilableGet sent.Labels k
          = if k = "deployment-name" then some web.Name else nilableGet web.Labels k)
      ∧ (apiOk "default" sent = none → (syncDeployment apiOk "default" "web" world0).1 = none) :=
  syncDeployment_adds_name_label apiOk "default" "web" world0 web rfl (by decide) (by decide)

/-- C4: for a cached deployment without the triggering marker (annotation
`add-deployment-name-label` absent, or not exactly `True`), `syncDeployment`
returns nil and issues no remote `Update`; it changes nothing at all. -/
theorem syncDeployment_no_marker_noop (api : RemoteAPI) (ns name : String) (w : World)
    (dep : Deployment) (hget : listerGet w.cache ns name = Except.ok dep)
    (hno : nilableGet dep.Annotations "add-deployment-name-label" ≠ some "True") :
    (syncDeployment api ns name w).1 = none
    ∧ remoteUpdates (syncDeployment api ns name w).2.trace = remoteUpdates w.trace
    ∧ (syncDeployment api ns name w).2 = w := by
  rw [syncDeployment_unmarked api ns name w dep hget hno]
  exact ⟨rfl, rfl, rfl⟩

/-- Witness of `syncDeployment_no_marker_noop` on `api0`, whose marker is `true`. -/
theorem syncDeployment_no_marker_noop_witness :
    (syncDeployment apiConflict "default" "api" world0).1 = none
    ∧ remoteUpdates (syncDeployment apiConflict "default" "api" world0).2.trace
        = remoteUpdates world0.trace
    ∧ (syncDeployment apiConflict "default" "api" world0).2 = world0 :=
  syncDeployment_no_marker_noop apiConflict "default" "api" world0 api0 rfl (by decide)

/-- C5, evaluated: `syncDeployment` on `default/web` in `world0` changes the
object held by the store (its labels go from nil to `deployment-name: web`),
also when the `Update` fails; the object sent is the stored object itself. -/
theorem syncDeployment_mutates_cached_object :
    mapGet world0.cache (listerKey "default" "web") = some web
    ∧ mapGet (syncDeployment apiOk "default" "web" world0).2.cache (listerKey "default" "web")
        = some webLabelled
    ∧ mapGet (syncDeployment apiConflict "default" "web" world0).2.cache
        (listerKey "default" "web") = some webLabelled
    ∧ web ≠ webLabelled
    ∧ (syncDeployment apiOk "default" "web" world0).2.cache ≠ world0.cache := by
  decide

/-! ## `processItem`: lemmas -/

/-- The path of `processItem` through `syncDeployment`, for an item whose key
is derived and split without error. -/
theorem processItem_wellformed (api : RemoteAPI) (item : Item) (w : World)
    (key ns name : String) (hkey : MetaNamespaceKeyFunc item = Except.ok key)
    (hsplit : SplitMetaNamespaceKey key = Except.ok (ns, name)) :
    processItem api (some item) w
      = match syncDeployment api ns name (w.emit Call.queueGet) with
        | (some err, w2) => (true, w2.emit (Call.print "syncing cache %s\n" (some err)))
        | (none, w2) => (true, w2) := by
  simp only [processItem, hkey, hsplit]

/-- No path of `processItem` calls `Add`, `AddRateLimited`, `Forget` or `Done`. -/
theorem processItem_queueWrites (api : RemoteAPI) (got : Option Item) (w : World) :
    queueWrites (processItem api got w).2.trace = queueWrites w.trace := by
  have hget : queueWrites (w.emit Call.queueGet).trace = queueWrites w.trace := by
    simp [queueWrites_emit, Call.isQueueWrite]
  cases got with
  | none => simpa [processItem] using hget
  | some item =>
    cases hkey : MetaNamespaceKeyFunc item with
    | error e =>
      simp only [processItem, hkey]
      simp [queueWrites_emit, Call.isQueueWrite]
    | ok key =>
      cases hsplit : SplitMetaNamespaceKey key with
      | error e =>
        simp only [processItem, hkey, hsplit]
        simp [queueWrites_emit, Call.isQueueWrite]
      | ok parts =>
        obtain ⟨ns, name⟩ := parts
        rw [processItem_wellformed api item w key ns name hkey hsplit]
        have hs := syncDeployment_queueWrites api ns name (w.emit Call.queueGet)
        rw [hget] at hs
        rcases hr : syncDeployment api ns name (w.emit Call.queueGet) with ⟨r, w2⟩
        rw [hr] at hs
        cases r with
        | none => simpa using hs
        | some err => simpa [queueWrites_emit, Call.isQueueWrite] using hs

/-! ## `processItem`: the claims -/

/-- C6, as stated, fails: `web` is dequeued with a well-formed key, the
`Update` fails with Conflict, and `processItem` calls neither
`AddRateLimited` nor `Done` on the item: it makes no queue call after `Get`. -/
theorem processItem_conflict_not_requeued :
    (syncDeployment apiConflict "default" "web" world0).1
        = some (Err.conflict "default" "web")
    ∧ (processItem apiConflict (some (Item.deployment web)) world0).1 = true
    ∧ Call.queueAddRateLimited (Item.deployment web)
        ∉ (processItem apiConflict (some (Item.deployment web)) world0).2.trace
    ∧ Call.queueDone (Item.deployment web)
        ∉ (processItem apiConflict (some (Item.deployment web)) world0).2.trace
    ∧ queueWrites (processItem apiConflict (some (Item.deployment web)) world0).2.trace = [] := by
  decide

/-- C6, amended: for a dequeued item with a well-formed key for which
`syncDeployment` returns an error (a failed `Update`, Conflict included),
`processItem` logs the error after the sync, returns true, and makes no
`AddRateLimited`, `Done`, `Forget` or `Add` call: it does not re-enqueue. -/
theorem processItem_sync_error_logged_only (api : RemoteAPI) (item : Item) (w : World)
    (key ns name : String) (err : Err)
    (hkey : MetaNamespaceKeyFunc item = Except.ok key)
    (hsplit : SplitMetaNamespaceKey key = Except.ok (ns, name))
    (herr : (syncDeployment api ns name w).1 = some err) :
    (processItem api (some item) w).1 = true
    ∧ (processItem api (some item) w).2
        = (syncDeployment api ns name (w.emit Call.queueGet)).2.emit
            (Call.print "syncing cache %s\n" (some err))
    ∧ queueWrites (processItem api (some item) w).2.trace = queueWrites w.trace := by
  refine ⟨?_, ?_, processItem_queueWrites api (some item) w⟩
  all_goals
    rw [processItem_wellformed api item w key ns name hkey hsplit]
    have h1 : (syncDeployment api ns name (w.emit Call.queueGet)).1 = some err := by
      rw [← herr]
      exact syncDeployment_result_of_cache api ns name _ _ rfl
    rcases hr : syncDeployment api ns name (w.emit Call.queueGet) with ⟨r, w2⟩
    rw [hr] at h1
    simp only at h1
    subst h1
    rfl

/-- Witness of `processItem_sync_error_logged_only`: `web` with a Conflict. -/
theorem processItem_sync_error_logged_only_witness :
    (processItem apiConflict (some (Item.deployment web)) world0).1 = true
    ∧ (processItem apiConflict (some (Item.deployment web)) world0).2
        = (syncDeployment apiConflict "default" "web" (world0.emit Call.queueGet)).2.emit
            (Call.print "syncing cache %s\n" (some (Err.conflict "default" "web")))
    ∧ queueWrites (processItem apiConflict (some (Item.deployment web)) world0).2.trace
        = queueWrites world0.trace :=
  processItem_sync_error_logged_only apiConflict (Item.deployment web) world0
    "default/web" "default" "web" (Err.conflict "default" "web") rfl rfl (by decide)

/-- C7, as stated, fails: on the successful sync of `web`, on its failed sync
and on a tombstone (no key), `processItem` returns without a `Done` call on
the item it was handed (and without `Forget` on success). -/
theorem processItem_never_done :
    (syncDeployment apiOk "default" "web" world0).1 = none
    ∧ Call.queueDone (Item.deployment web)
        ∉ (processItem apiOk (some (Item.deployment web)) world0).2.trace
    ∧ Call.queueForget (Item.deployment web)
        ∉ (processItem apiOk (some (Item.deployment web)) world0).2.trace
    ∧ Call.queueDone (Item.deployment web)
        ∉ (processItem apiConflict (some (Item.deployment web)) world0).2.trace
    ∧ Call.queueDone (Item.deletedFinalStateUnknown "default/web" (some web))
        ∉ (processItem apiOk
            (some (Item.deletedFinalStateUnknown "default/web" (some web))) world0).2.trace := by
  decide

/-- C7, amended: on every path (shutdown, malformed key, successful sync,
failed sync) `processItem` makes no `Done` call, and no `Forget`,
`AddRateLimited` or `Add` call either: its only queue call is the `Get`. -/
theorem processItem_no_queue_write (api : RemoteAPI) (got : Option Item) (w : World) :
    queueWrites (processItem api got w).2.trace = queueWrites w.trace
    ∧ ∀ item : Item, Call.queueDone item ∈ (processItem api got w).2.trace →
        Call.queueDone item ∈ w.trace := by
  have h := processItem_queueWrites api got w
  refine ⟨h, fun item hmem => ?_⟩
  have h1 : Call.queueDone item ∈ queueWrites (processItem api got w).2.trace := by
    simp [queueWrites, List.mem_filter, hmem, Call.isQueueWrite]
  rw [h] at h1
  simp only [queueWrites, List.mem_filter] at h1
  exact h1.1

/-- C8, as stated, fails: `Get` hands out a tombstone without shutdown, the
key cannot be derived, and `processItem` returns false; a `worker` handed the
tombstone and then `web` stops after the tombstone, with `web` not pulled. -/
theorem processItem_malformed_returns_false :
    (processItem apiOk (some (Item.deletedFinalStateUnknown "default/web" (some web))) world0).1
        = false
    ∧ (worker apiOk [some (Item.deletedFinalStateUnknown "default/web" (some web)),
          some (Item.deployment web)] world0).2 = [some (Item.deployment web)]
    ∧ remoteUpdates (worker apiOk [some (Item.deletedFinalStateUnknown "default/web" (some web)),
          some (Item.deployment web)] world0).1.trace = [] := by
  decide

/-- C8, amended: `processItem` returns false if and only if `queue.Get`
reports shutdown or the key of the item is malformed (`MetaNamespaceKeyFunc`
or `SplitMetaNamespaceKey` returns an error); for an item with a well-formed
key it returns true whether `syncDeployment` fails or succeeds. -/
theorem processItem_false_iff (api : RemoteAPI) (got : Option Item) (w : World) :
    (processItem api got w).1 = false ↔
      (got = none ∨ ∃ item, got = some item ∧
        ((∃ e, MetaNamespaceKeyFunc item = Except.error e)
          ∨ ∃ key e, MetaNamespaceKeyFunc item = Except.ok key
              ∧ SplitMetaNamespaceKey key = Except.error e)) := by
  cases got with
  | none => simp [processItem]
  | some item =>
    cases hkey : MetaNamespaceKeyFunc item with
    | error e => simp [processItem, hkey]
    | ok key =>
      cases hsplit : SplitMetaNamespaceKey key with
      | error e => simp [processItem, hkey, hsplit]
      | ok parts =>
        obtain ⟨ns, name⟩ := parts
        rw [processItem_wellformed api item w key ns name hkey hsplit]
        rcases hr : syncDeployment api ns name (w.emit Call.queueGet) with ⟨r, w2⟩
        cases r <;> simp [hkey, hsplit]

/-! ## `run`: lemmas and the claim -/

theorem Env.closed_mono (env : Env) (t t' : Nat) (h : env.closed t = true) (hle : t ≤ t') :
    env.closed t' = true := by
  unfold Env.closed at h ⊢
  cases hs : env.stopAt with
  | none => simp [hs] at h
  | some s =>
    simp only [hs, decide_eq_true_eq] at h ⊢
    omega

/-- A `WaitForCacheSync` that returned false found the stop channel closed. -/
theorem WaitForCacheSync_false (env : Env) (polls t0 t : Nat)
    (h : WaitForCacheSync env polls t0 = some (false, t)) : env.closed t = true := by
  induction polls generalizing t0 with
  | zero => simp [WaitForCacheSync] at h
  | succ n ih =>
    unfold WaitForCacheSync at h
    by_cases hs : env.hasSynced t0 = true
    · simp [hs] at h
    · by_cases hc : env.closed t0 = true
      · simp only [hs, hc, if_true, Bool.false_eq_true, if_false, Option.some.injEq,
          Prod.mk.injEq, true_and] at h
        rw [← h]; exact hc
      · simp only [hs, hc, Bool.false_eq_true, if_false] at h
        exact ih _ h

/-- A `WaitForCacheSync` that returned true saw the informer synced. -/
theorem WaitForCacheSync_true (env : Env) (polls t0 t : Nat)
    (h : WaitForCacheSync env polls t0 = some (true, t)) : env.hasSynced t = true := by
  induction polls generalizing t0 with
  | zero => simp [WaitForCacheSync] at h
  | succ n ih =>
    unfold WaitForCacheSync at h
    by_cases hs : env.hasSynced t0 = true
    · simp only [hs, if_true, Option.some.injEq, Prod.mk.injEq, true_and] at h
      rw [← h]; exact hs
    · by_cases hc : env.closed t0 = true
      · simp [hs, hc] at h
      · simp only [hs, hc, Bool.false_eq_true, if_false] at h
        exact ih _ h

/-- Started on a closed stop channel, `wait.Until` returns without a call. -/
theorem waitUntil_closed (env : Env) (api : RemoteAPI) (rounds t : Nat)
    (feed : List (Option Item)) (w : World) (h : env.closed t = true) :
    waitUntil env api rounds t feed w = w := by
  cases rounds <;> simp [waitUntil, h]

/-- C9: startup gate in `run`.  If `cache.WaitForCacheSync` returns false, the
stop channel is closed, so the `wait.Until` that `run` launches returns at its
first test of the channel: `c.worker` is never called, no item is pulled or
processed, and `run` only prints its two lines.  Conversely `c.worker` is
called only when `WaitForCacheSync` has returned true, which it does only
once the informer has reported synced. -/
theorem run_startup_gate (env : Env) (api : RemoteAPI) (polls rounds : Nat)
    (feed : List (Option Item)) (w : World) :
    (∀ t : Nat, WaitForCacheSync env polls 0 = some (false, t) →
        run env api polls rounds feed w
          = { w with trace := w.trace ++
                [Call.print "starting controller" none, Call.waitForCacheSync,
                 Call.print "error occured while syncing cache\n" none,
                 Call.goWaitUntilWorker, Call.receiveStop] })
    ∧ (Call.callWorker ∈ (run env api polls rounds feed w).trace →
        Call.callWorker ∉ w.trace →
        ∃ t : Nat, WaitForCacheSync env polls 0 = some (true, t) ∧ env.hasSynced t = true) := by
  have hfail : ∀ t : Nat, WaitForCacheSync env polls 0 = some (false, t) →
      run env api polls rounds feed w
        = { w with trace := w.trace ++
              [Call.print "starting controller" none, Call.waitForCacheSync,
               Call.print "error occured while syncing cache\n" none,
               Call.goWaitUntilWorker, Call.receiveStop] } := by
    intro t ht
    have hc : env.closed (t + 1) = true :=
      Env.closed_mono env t (t + 1) (WaitForCacheSync_false env polls 0 t ht) (Nat.le_succ t)
    simp only [run, ht]
    rw [waitUntil_closed env api rounds (t + 1) feed _ hc]
    simp [World.emit]
  refine ⟨hfail, fun hmem hnot => ?_⟩
  cases hw : WaitForCacheSync env polls 0 with
  | none =>
    simp only [run, hw] at hmem
    simp [World.emit, hnot] at hmem
  | some r =>
    obtain ⟨ok, t⟩ := r
    cases ok with
    | false =>
      rw [hfail t hw] at hmem
      simp [hnot] at hmem
    | true => exact ⟨t, rfl, WaitForCacheSync_true env polls 0 t hw⟩

/-- Witness of `run_startup_gate`: with `envStopped` the wait fails at time 2
and `web`, though handed out by the queue, is never pulled; with `envSynced`
the wait succeeds at time 1, the worker is called and `web` is synced. -/
theorem run_startup_gate_witness :
    WaitForCacheSync envStopped 5 0 = some (false, 2)
    ∧ run envStopped apiOk 5 5 [some (Item.deployment web)] world0
        = { world0 with trace := world0.trace ++
              [Call.print "starting controller" none, Call.waitForCacheSync,
               Call.print "error occured while syncing cache\n" none,
               Call.goWaitUntilWorker, Call.receiveStop] }
    ∧ (run envSynced apiOk 5 5 [some (Item.deployment web)] world0).trace
        = [Call.print "starting controller" none, Call.waitForCacheSync,
           Call.goWaitUntilWorker, Call.receiveStop, Call.callWorker, Call.queueGet,
           Call.update "default" webLabelled, Call.print "label is added" none]
    ∧ ∃ t : Nat, WaitForCacheSync envSynced 5 0 = some (true, t)
        ∧ envSynced.hasSynced t = true :=
  ⟨by decide,
   (run_startup_gate envStopped apiOk 5 5 [some (Item.deployment web)] world0).1 2 (by decide),
   by decide,
   (run_startup_gate envSynced apiOk 5 5 [some (Item.deployment web)] world0).2
     (by decide) (by decide)⟩

/-! ## The handlers of `newController`: the claim -/

/-- C10, as stated, fails: the handlers of `newController` make no `queue.Add`
for an update notification, and for an add notification (likewise a delete)
the work item is the whole object handed in, not a namespace/name key. -/
theorem update_notification_not_enqueued :
    queueWrites (deliver newController
        (Notification.update (Item.deployment web) (Item.deployment webLabelled)) world0).trace = []
    ∧ queueWrites (deliver newController (Notification.add (Item.deployment web)) world0).trace
        = [Call.queueAdd (Item.deployment web)]
    ∧ queueWrites (deliver newController (Notification.delete (Item.deployment web)) world0).trace
        = [Call.queueAdd (Item.deployment web)]
    ∧ Item.deployment web ≠ Item.explicitKey "default/web" := by
  decide

/-- C10, amended: an add and a delete notification delivered to the handlers
of `newController` each print one line and make exactly one `queue.Add`, whose
work item is the notified object itself (the key is derived later, in
`processItem`); an update notification makes no call at all, no handler being
registered for it; none of the three makes a remote call. -/
theorem deliver_newController (obj oldObj newObj : Item) (w : World) :
    deliver newController (Notification.add obj) w
        = { w with trace := w.trace ++ [Call.print "Add was called" none, Call.queueAdd obj] }
    ∧ deliver newController (Notification.delete obj) w
        = { w with trace := w.trace ++ [Call.print "Delete was called" none, Call.queueAdd obj] }
    ∧ deliver newController (Notification.update oldObj newObj) w = w
    ∧ ∀ n : Notification,
        remoteUpdates (deliver newController n w).trace = remoteUpdates w.trace := by
  refine ⟨?_, ?_, rfl, ?_⟩
  · simp [deliver, newController, handleAdd, World.emit]
  · simp [deliver, newController, handleDelete, World.emit]
  · intro n
    cases n <;>
      simp [deliver, newController, handleAdd, handleDelete, remoteUpdates_emit, Call.asUpdate]

end Controller
